import Mathlib

/-!
Shallow embedding of the skill-management-api repository: a Go HTTP CRUD
service over a single Postgres table `skill`.  The database table is
modelled as a list of rows; the SQL statements issued by the handlers are
modelled as functions on that list, and each gin handler becomes a pure
function from the request data (path parameter, decoded JSON body) and the
current table to an HTTP response and the resulting table.
-/

/-- One row of the `skill` table: key TEXT PRIMARY KEY, name, description,
logo TEXT NOT NULL, tags TEXT[] NOT NULL.  Mirrors the Go struct `Skill`. -/
structure Skill where
  key : String
  name : String
  description : String
  logo : String
  tags : List String
deriving Repr, DecidableEq

/-- The `skill` table: a list of rows.  The PRIMARY KEY constraint is not a
structural invariant of this type; it is enforced by `insertSkill` (the
model of the INSERT statement) and proved preserved in the theorems. -/
abbrev Store := List Skill

/-- SELECT key, name, description, logo, tags FROM skill WHERE key=$1,
scanned into a single row: the first row whose key matches, if any. -/
def selectSkillByKey : Store → String → Option Skill
  | [], _ => none
  | r :: rest, k => if r.key = k then some r else selectSkillByKey rest k

/-- INSERT INTO skill (key, name, description, logo, tags) VALUES (...)
RETURNING ...: fails (returns `none`, i.e. the PRIMARY KEY constraint
rejects the row) exactly when a row with the same key is present. -/
def insertSkill (db : Store) (s : Skill) : Option Store :=
  match selectSkillByKey db s.key with
  | some _ => none
  | none => some (db ++ [s])

/-- The SET clause of the five UPDATE statements of the dispatcher: how a
stored row `r` is rewritten from the request skill `s` for a given target
field name.  Only the listed column(s) are assigned; `key` is never SET. -/
def setField (field : String) (s : Skill) (r : Skill) : Skill :=
  if field = "all" then
    { r with name := s.name, description := s.description,
             logo := s.logo, tags := s.tags }
  else if field = "name" then { r with name := s.name }
  else if field = "description" then { r with description := s.description }
  else if field = "logo" then { r with logo := s.logo }
  else if field = "tags" then { r with tags := s.tags }
  else r

/-- UPDATE skill SET ... WHERE key=$k: every row whose key matches `k` is
rewritten by `setField`, every other row is untouched. -/
def updateRows (db : Store) (field : String) (s : Skill) (k : String) : Store :=
  db.map (fun r => if r.key = k then setField field s r else r)

/-- DELETE FROM skill WHERE key=$1: removes every row whose key matches. -/
def deleteRows : Store → String → Store
  | [], _ => []
  | r :: rest, k => if r.key = k then deleteRows rest k else r :: deleteRows rest k

/-- A JSON response body.  `skillData` is the Go `SkillResponse` envelope
with fields status and data, `skillsData` the `GetSkillsResponse` envelope,
`message` the Go `Response`/`FailureResponse` envelope with fields status
and message, and `bare` a body that serializes a `Skill` with no envelope
at all (used by the earlier server version's PUT success path). -/
inductive RespBody where
  | skillData (status : String) (data : Skill)
  | skillsData (status : String) (data : List Skill)
  | message (status : String) (message : String)
  | bare (data : Skill)
deriving Repr, DecidableEq

/-- An HTTP response: status code plus JSON body. -/
structure HttpResponse where
  code : Nat
  body : RespBody
deriving Repr, DecidableEq

/-- Whether the body carries a `data` field. -/
def hasDataField : RespBody → Bool
  | .skillData _ _ => true
  | .skillsData _ _ => true
  | _ => false

/-- Whether the body is the error envelope: status field "error" together
with a message field. -/
def isErrorMessage : RespBody → Bool
  | .message s _ => s = "error"
  | _ => false

/-- Whether the body is a success envelope carrying a data field. -/
def isSuccessData : RespBody → Bool
  | .skillData s _ => s = "success"
  | .skillsData s _ => s = "success"
  | _ => false

/-- The Go zero value of `Skill`: what `var skill Skill` holds when
BindJSON populates nothing (empty strings, nil tags). -/
def zeroSkill : Skill := ⟨"", "", "", "", []⟩

/-- Result of `ctx.BindJSON(&skill)` in the simple happy-path model: a
decoded body when binding succeeds, the zero-valued struct when it fails
(the handlers fall through after `ctx.Error`).  This simple model drops two
behaviors of the real stack: gin's `BindJSON` is `MustBindWith`, which on
failure has already written the HTTP 400 status to the wire before the
handler continues, and a nil Go tags slice is distinct from an empty one —
`pq.Array(nil)` sends SQL NULL into the NOT NULL tags column.  `SkillBody`,
`bindSkillBody`, `wireCode` and the `...Full` handlers below model both;
the theorems proved over the simple handlers hold of the program
independently of the dropped behavior. -/
def bindSkill (bodyOpt : Option Skill) : Skill :=
  bodyOpt.getD zeroSkill

/-- Handler for GET /api/v1/skills: SELECT every row, wrap in the success
envelope.  (The query on the modelled store cannot fail.) -/
def getSkillsHandler (db : Store) : HttpResponse :=
  ⟨200, .skillsData "success" db⟩

/-- Handler for GET /api/v1/skills/:key: one-row SELECT by the path key;
`Scan` fails exactly when no row matched, producing the 404 envelope. -/
def getSkillByKeyHandler (db : Store) (paramKey : String) : HttpResponse :=
  match selectSkillByKey db paramKey with
  | some skill => ⟨200, .skillData "success" skill⟩
  | none => ⟨404, .message "error" "Skill not found"⟩

/-- Handler for POST /api/v1/skills in the simple model: bind the body
(continuing with zero values on bind failure), INSERT ... RETURNING; a
failed insert (duplicate primary key) yields the 409 envelope, otherwise
the inserted row is returned in the success envelope.  The bind-failure and
nil-tags paths diverge from the program (see `createSkillHandlerFull`). -/
def createSkillHandler (db : Store) (bodyOpt : Option Skill) : HttpResponse × Store :=
  let skill := bindSkill bodyOpt
  match insertSkill db skill with
  | some db2 => (⟨200, .skillData "success" skill⟩, db2)
  | none => (⟨409, .message "error" "Skill already exists"⟩, db)

/-- The per-route error message of the update dispatcher. -/
def updateErrMsg (updateField : String) : String :=
  if updateField = "all" then "not be able to update skill"
  else "not be able to update skill " ++ updateField

/-- The final server version's update dispatcher `updateSkill` in the
simple model: bind the body (continuing on failure), overwrite the body's
key with the path parameter, issue the UPDATE ... RETURNING statement
selected by `updateField`, 400-envelope when Scan finds no returned row,
success envelope with the returned (updated) row otherwise.  For an
`updateField` outside the five dispatched names the Go code dereferences a
nil `*sql.Row` and panics; that case is modelled as `none`.  The
bind-failure and nil-tags paths diverge from the program (see
`updateSkillFull`). -/
def updateSkill (db : Store) (paramKey : String) (bodyOpt : Option Skill)
    (updateField : String) : Option (HttpResponse × Store) :=
  let skill0 := bindSkill bodyOpt
  let skill : Skill := { skill0 with key := paramKey }
  if updateField = "all" ∨ updateField = "name" ∨ updateField = "description"
      ∨ updateField = "logo" ∨ updateField = "tags" then
    match selectSkillByKey db skill.key with
    | some oldRow =>
        some (⟨200, .skillData "success" (setField updateField skill oldRow)⟩,
              updateRows db updateField skill skill.key)
    | none =>
        some (⟨400, .message "error" (updateErrMsg updateField)⟩, db)
  else
    none

/-- Handler for PUT /api/v1/skills/:key. -/
def updateSkillByKeyHandler (db : Store) (paramKey : String)
    (bodyOpt : Option Skill) : Option (HttpResponse × Store) :=
  updateSkill db paramKey bodyOpt "all"

/-- Handler for PATCH /api/v1/skills/:key/actions/name. -/
def updateSkillNameByKeyHandler (db : Store) (paramKey : String)
    (bodyOpt : Option Skill) : Option (HttpResponse × Store) :=
  updateSkill db paramKey bodyOpt "name"

/-- Handler for PATCH /api/v1/skills/:key/actions/description. -/
def updateSkillDescriptionByKeyHandler (db : Store) (paramKey : String)
    (bodyOpt : Option Skill) : Option (HttpResponse × Store) :=
  updateSkill db paramKey bodyOpt "description"

/-- Handler for PATCH /api/v1/skills/:key/actions/logo. -/
def updateSkillLogoByKeyHandler (db : Store) (paramKey : String)
    (bodyOpt : Option Skill) : Option (HttpResponse × Store) :=
  updateSkill db paramKey bodyOpt "logo"

/-- Handler for PATCH /api/v1/skills/:key/actions/tags. -/
def updateSkillTagsByKeyHandler (db : Store) (paramKey : String)
    (bodyOpt : Option Skill) : Option (HttpResponse × Store) :=
  updateSkill db paramKey bodyOpt "tags"

/-- Handler for DELETE /api/v1/skills/:key: DELETE ... RETURNING by the
path key; Scan fails exactly when no row matched (400 envelope), otherwise
a 200 with the `Response` envelope carrying the message "Skill deleted"
and no data field. -/
def deleteSkillByKeyHandler (db : Store) (paramKey : String) : HttpResponse × Store :=
  match selectSkillByKey db paramKey with
  | some _ => (⟨200, .message "success" "Skill deleted"⟩, deleteRows db paramKey)
  | none => (⟨400, .message "error" "not be able to delete skill"⟩, db)

/-- The earlier server version's (server.go) `updateSkill` in the simple
model: same binding and key overwrite, but only the "all" branch issues a
statement and its success path writes the bare skill struct with
`ctx.JSON(http.StatusOK, skill)` — no envelope.  For any other field the
function falls through without writing a response (`none` in the first
component).  Its bind-failure and nil-tags paths carry the same
simplification as `updateSkill` relative to the program. -/
def updateSkillV2 (db : Store) (paramKey : String) (bodyOpt : Option Skill)
    (updateField : String) : Option HttpResponse × Store :=
  let skill0 := bindSkill bodyOpt
  let skill : Skill := { skill0 with key := paramKey }
  if updateField = "all" then
    match selectSkillByKey db skill.key with
    | some oldRow =>
        (some ⟨200, .bare (setField "all" skill oldRow)⟩,
         updateRows db "all" skill skill.key)
    | none =>
        (some ⟨400, .message "error" "not be able to update skill"⟩, db)
  else
    (none, db)

/-- The keys column of the table. -/
def keys (db : Store) : List String := db.map (fun r => r.key)

/-- Primary-key uniqueness: no two rows share a key. -/
def keysNodup (db : Store) : Prop := (keys db).Nodup

/-- The five field names the final dispatcher handles. -/
def validUpdateFields : List String := ["all", "name", "description", "logo", "tags"]

/-- The four single-field PATCH routes. -/
def patchFields : List String := ["name", "description", "logo", "tags"]

/-- A decoded request body as Go's `json.Unmarshal` leaves the struct:
`tags` is `none` when the body supplied no tags array, leaving the Go slice
nil — which `pq.Array` serializes as SQL NULL — and `some ts` when a
literal array was supplied, which reaches the column as a (possibly empty)
TEXT[] value. -/
structure SkillBody where
  key : String
  name : String
  description : String
  logo : String
  tags : Option (List String)
deriving Repr, DecidableEq

/-- The Go zero value of the request struct: empty strings and a nil tags
slice. -/
def zeroSkillBody : SkillBody := ⟨"", "", "", "", none⟩

/-- Result of `ctx.BindJSON` in the refined model: a request is `none` when
binding fails; the handler then continues with the zero-valued struct. -/
def bindSkillBody (req : Option SkillBody) : SkillBody :=
  req.getD zeroSkillBody

/-- Wire status of a handler's `ctx.JSON(code, ...)`: when the request's
bind failed, `BindJSON` (`MustBindWith`) has already called
`AbortWithError(400, ...)`, which flushes the 400 header to the wire, so
the status the handler passes later cannot change what the client sees. -/
def wireCode (bindFailed : Bool) (handlerCode : Nat) : Nat :=
  if bindFailed then 400 else handlerCode

/-- The row a request's values stand for once the path key has overwritten
the body key; a nil tags slice is rendered `[]` here, but the refined
statements fail before storing it whenever NULL would reach the NOT NULL
column. -/
def requestRow (paramKey : String) (req : Option SkillBody) : Skill :=
  ⟨paramKey, (bindSkillBody req).name, (bindSkillBody req).description,
   (bindSkillBody req).logo, ((bindSkillBody req).tags).getD []⟩

/-- INSERT in the refined model: a nil tags slice reaches the statement as
SQL NULL and violates TAGS TEXT[] NOT NULL, so the INSERT fails; otherwise
the PRIMARY KEY constraint rejects exactly the duplicate keys.  On success
the RETURNING row and the new table are produced. -/
def insertSkillFull (db : Store) (b : SkillBody) : Option (Skill × Store) :=
  match b.tags with
  | none => none
  | some ts =>
      match selectSkillByKey db b.key with
      | some _ => none
      | none =>
          let row : Skill := ⟨b.key, b.name, b.description, b.logo, ts⟩
          some (row, db ++ [row])

/-- Refined POST handler: any INSERT error (NULL tags or duplicate key)
takes the handler's single 409 "Skill already exists" branch, and a failed
bind forces the wire status to 400 whatever the handler renders. -/
def createSkillHandlerFull (db : Store) (req : Option SkillBody) :
    HttpResponse × Store :=
  let b := bindSkillBody req
  match insertSkillFull db b with
  | some (row, db2) => (⟨wireCode req.isNone 200, .skillData "success" row⟩, db2)
  | none => (⟨wireCode req.isNone 409, .message "error" "Skill already exists"⟩, db)

/-- Refined update dispatcher: as `updateSkill`, plus the two driver-level
behaviors the simple model drops.  A failed bind has already written the
400 wire status; and when the tags or "all" statement sends a nil tags
slice (SQL NULL) and a row matches the key, the NOT NULL constraint fails
the UPDATE, so Scan errors and the handler answers its error envelope with
the store unchanged.  A statement matching no row still just returns no
rows (no constraint is checked), which also lands in the error branch. -/
def updateSkillFull (db : Store) (paramKey : String) (req : Option SkillBody)
    (updateField : String) : Option (HttpResponse × Store) :=
  if updateField = "all" ∨ updateField = "name" ∨ updateField = "description"
      ∨ updateField = "logo" ∨ updateField = "tags" then
    match selectSkillByKey db paramKey with
    | some oldRow =>
        if (updateField = "all" ∨ updateField = "tags")
            ∧ (bindSkillBody req).tags = none then
          some (⟨wireCode req.isNone 400, .message "error" (updateErrMsg updateField)⟩,
                db)
        else
          some (⟨wireCode req.isNone 200,
                 .skillData "success" (setField updateField (requestRow paramKey req) oldRow)⟩,
                updateRows db updateField (requestRow paramKey req) paramKey)
    | none =>
        some (⟨wireCode req.isNone 400, .message "error" (updateErrMsg updateField)⟩,
              db)
  else
    none

/-- The status field of a body, when the body has one at all. -/
def statusFieldOf : RespBody → Option String
  | .skillData st _ => some st
  | .skillsData st _ => some st
  | .message st _ => some st
  | .bare _ => none

/-- Agreement of a new row with an old row on every column except possibly
the one named `field`; the key always agrees. -/
def agreesOffField (field : String) (nw old : Skill) : Prop :=
  nw.key = old.key
  ∧ (field = "name" ∨ nw.name = old.name)
  ∧ (field = "description" ∨ nw.description = old.description)
  ∧ (field = "logo" ∨ nw.logo = old.logo)
  ∧ (field = "tags" ∨ nw.tags = old.tags)

/-- A client request, as routed by the registered route table of the final
server version. -/
inductive Op where
  | createOp (bodyOpt : Option Skill)
  | getAllOp
  | getOp (k : String)
  | putOp (k : String) (bodyOpt : Option Skill)
  | patchNameOp (k : String) (bodyOpt : Option Skill)
  | patchDescriptionOp (k : String) (bodyOpt : Option Skill)
  | patchLogoOp (k : String) (bodyOpt : Option Skill)
  | patchTagsOp (k : String) (bodyOpt : Option Skill)
  | deleteOp (k : String)

/-- The table contents after one routed request has been handled. -/
def step (db : Store) : Op → Store
  | .createOp b => (createSkillHandler db b).2
  | .getAllOp => db
  | .getOp _ => db
  | .putOp k b =>
      match updateSkillByKeyHandler db k b with
      | some (_, db2) => db2
      | none => db
  | .patchNameOp k b =>
      match updateSkillNameByKeyHandler db k b with
      | some (_, db2) => db2
      | none => db
  | .patchDescriptionOp k b =>
      match updateSkillDescriptionByKeyHandler db k b with
      | some (_, db2) => db2
      | none => db
  | .patchLogoOp k b =>
      match updateSkillLogoByKeyHandler db k b with
      | some (_, db2) => db2
      | none => db
  | .patchTagsOp k b =>
      match updateSkillTagsByKeyHandler db k b with
      | some (_, db2) => db2
      | none => db
  | .deleteOp k => (deleteSkillByKeyHandler db k).2

/-- Sample row used in concrete witnesses. -/
def skillPython : Skill :=
  ⟨"python", "Python", "Interpreted language", "python.svg",
   ["programming language", "scripting"]⟩

/-- Second sample row used in concrete witnesses. -/
def skillGo : Skill :=
  ⟨"go", "Go", "Compiled language", "go.svg", ["programming language"]⟩

example : selectSkillByKey [skillPython, skillGo] "go" = some skillGo := by decide
example : (createSkillHandler [] (some skillPython)).2 = [skillPython] := by decide
example : (deleteSkillByKeyHandler [skillPython] "python").1.code = 200 := by decide

/-! Helper lemmas about the modelled SQL operations. -/

theorem selectSkillByKey_key (db : Store) (k : String) (s : Skill)
    (h : selectSkillByKey db k = some s) : s.key = k := by
  induction db with
  | nil => simp [selectSkillByKey] at h
  | cons r rest ih =>
    by_cases hk : r.key = k
    · simp [selectSkillByKey, hk] at h
      rw [← h]; exact hk
    · simp [selectSkillByKey, hk] at h
      exact ih h

theorem selectSkillByKey_eq_none_iff (db : Store) (k : String) :
    selectSkillByKey db k = none ↔ ∀ r ∈ db, r.key ≠ k := by
  induction db with
  | nil => simp [selectSkillByKey]
  | cons r rest ih =>
    by_cases hk : r.key = k
    · simp [selectSkillByKey, hk]
    · simp [selectSkillByKey, hk, ih]

theorem selectSkillByKey_append_fresh (db : Store) (s : Skill)
    (h : selectSkillByKey db s.key = none) :
    selectSkillByKey (db ++ [s]) s.key = some s := by
  induction db with
  | nil => simp [selectSkillByKey]
  | cons r rest ih =>
    by_cases hk : r.key = s.key
    · simp [selectSkillByKey, hk] at h
    · simp [selectSkillByKey, hk] at h ⊢
      exact ih h

theorem selectSkillByKey_deleteRows_self (db : Store) (k : String) :
    selectSkillByKey (deleteRows db k) k = none := by
  induction db with
  | nil => simp [deleteRows, selectSkillByKey]
  | cons r rest ih =>
    by_cases hk : r.key = k
    · simpa [deleteRows, hk] using ih
    · simpa [deleteRows, hk, selectSkillByKey] using ih

theorem selectSkillByKey_deleteRows_other (db : Store) (k k2 : String) (h : k2 ≠ k) :
    selectSkillByKey (deleteRows db k) k2 = selectSkillByKey db k2 := by
  induction db with
  | nil => simp [deleteRows]
  | cons r rest ih =>
    by_cases hk : r.key = k
    · have hk2 : r.key ≠ k2 := by rw [hk]; exact fun he => h he.symm
      simp [deleteRows, hk, selectSkillByKey, hk2, ih, Ne.symm h]
    · simp [deleteRows, hk, selectSkillByKey, ih]

theorem setField_key (field : String) (s r : Skill) :
    (setField field s r).key = r.key := by
  unfold setField
  repeat' split
  all_goals rfl

theorem keys_updateRows (db : Store) (field : String) (s : Skill) (k : String) :
    keys (updateRows db field s k) = keys db := by
  induction db with
  | nil => rfl
  | cons r rest ih =>
    by_cases hk : r.key = k
    · simpa [updateRows, keys, hk, setField_key] using ih
    · simpa [updateRows, keys, hk] using ih

theorem deleteRows_sublist (db : Store) (k : String) : (deleteRows db k).Sublist db := by
  induction db with
  | nil => simp [deleteRows]
  | cons r rest ih =>
    by_cases hk : r.key = k
    · simp only [deleteRows, hk, if_pos]
      exact ih.trans (List.sublist_cons_self r rest)
    · simp only [deleteRows, hk, if_neg, not_false_iff]
      exact ih.cons₂ r

theorem mem_validUpdateFields_iff (field : String) :
    field ∈ validUpdateFields ↔ (field = "all" ∨ field = "name"
      ∨ field = "description" ∨ field = "logo" ∨ field = "tags") := by
  simp [validUpdateFields]

theorem updateSkill_eq (db : Store) (k : String) (bodyOpt : Option Skill) (field : String)
    (hf : field = "all" ∨ field = "name" ∨ field = "description"
      ∨ field = "logo" ∨ field = "tags") :
    updateSkill db k bodyOpt field =
      match selectSkillByKey db k with
      | some oldRow =>
          some (⟨200, .skillData "success"
                  (setField field { bindSkill bodyOpt with key := k } oldRow)⟩,
                updateRows db field { bindSkill bodyOpt with key := k } k)
      | none => some (⟨400, .message "error" (updateErrMsg field)⟩, db) := by
  unfold updateSkill
  rw [if_pos hf]

theorem bindSkill_key_override (bodyOpt : Option Skill) (k k2 : String) :
    ({ bindSkill (bodyOpt.map fun s => { s with key := k2 }) with key := k } : Skill)
      = { bindSkill bodyOpt with key := k } := by
  cases bodyOpt <;> rfl

theorem updateSkill_body_key_irrelevant (db : Store) (k k2 : String)
    (bodyOpt : Option Skill) (field : String) :
    updateSkill db k (bodyOpt.map fun s => { s with key := k2 }) field
      = updateSkill db k bodyOpt field := by
  cases bodyOpt <;> rfl

theorem updateSkillFull_eq (db : Store) (k : String) (req : Option SkillBody)
    (field : String)
    (hf : field = "all" ∨ field = "name" ∨ field = "description"
      ∨ field = "logo" ∨ field = "tags") :
    updateSkillFull db k req field =
      match selectSkillByKey db k with
      | some oldRow =>
          if (field = "all" ∨ field = "tags") ∧ (bindSkillBody req).tags = none then
            some (⟨wireCode req.isNone 400, .message "error" (updateErrMsg field)⟩, db)
          else
            some (⟨wireCode req.isNone 200,
                   .skillData "success" (setField field (requestRow k req) oldRow)⟩,
                  updateRows db field (requestRow k req) k)
      | none =>
          some (⟨wireCode req.isNone 400, .message "error" (updateErrMsg field)⟩, db) := by
  unfold updateSkillFull
  rw [if_pos hf]

theorem updateSkillFull_body_key_irrelevant (db : Store) (k k2 : String)
    (req : Option SkillBody) (field : String) :
    updateSkillFull db k (req.map fun b => { b with key := k2 }) field
      = updateSkillFull db k req field := by
  cases req <;> rfl

/-- C4: a POST of a skill whose key is not yet present succeeds with the 200
success envelope carrying the created record, stores the record, and a
subsequent GET of that key returns 200 with the same record. -/
theorem create_then_get_spec (db : Store) (s : Skill)
    (hfresh : selectSkillByKey db s.key = none) :
    createSkillHandler db (some s) = (⟨200, .skillData "success" s⟩, db ++ [s])
    ∧ getSkillByKeyHandler (db ++ [s]) s.key = ⟨200, .skillData "success" s⟩ := by
  constructor
  · simp [createSkillHandler, insertSkill, bindSkill, hfresh]
  · simp [getSkillByKeyHandler, selectSkillByKey_append_fresh db s hfresh]

theorem create_then_get_spec_witness :
    createSkillHandler [skillGo] (some skillPython)
        = (⟨200, .skillData "success" skillPython⟩, [skillGo, skillPython])
    ∧ getSkillByKeyHandler [skillGo, skillPython] "python"
        = ⟨200, .skillData "success" skillPython⟩ :=
  create_then_get_spec [skillGo] skillPython (by decide)

/-- C5: when a skill with key k already exists, a POST whose body carries
key k answers 409 with the error envelope and message "Skill already
exists", and the store (hence the existing record for k) is unchanged. -/
theorem duplicate_create_conflict (db : Store) (k : String) (ex : Skill)
    (hexist : selectSkillByKey db k = some ex) (body : Skill) (hk : body.key = k) :
    createSkillHandler db (some body)
      = (⟨409, .message "error" "Skill already exists"⟩, db) := by
  simp [createSkillHandler, insertSkill, bindSkill, hk, hexist]

theorem duplicate_create_conflict_witness :
    createSkillHandler [skillPython] (some { skillGo with key := "python" })
      = (⟨409, .message "error" "Skill already exists"⟩, [skillPython]) :=
  duplicate_create_conflict [skillPython] "python" skillPython (by decide)
    { skillGo with key := "python" } (by decide)

/-- C6: GET of an absent key answers 404 with the error envelope and the
fixed message "Skill not found", GET of a present key answers 200 with the
success envelope, and no other status code is ever produced by GET. -/
theorem get_by_key_spec (db : Store) (k : String) :
    (selectSkillByKey db k = none →
      getSkillByKeyHandler db k = ⟨404, .message "error" "Skill not found"⟩)
    ∧ (∀ s, selectSkillByKey db k = some s →
      getSkillByKeyHandler db k = ⟨200, .skillData "success" s⟩)
    ∧ ((getSkillByKeyHandler db k).code = 200 ∨ (getSkillByKeyHandler db k).code = 404) := by
  refine ⟨fun h => ?_, fun s h => ?_, ?_⟩
  · simp [getSkillByKeyHandler, h]
  · simp [getSkillByKeyHandler, h]
  · cases h : selectSkillByKey db k <;> simp [getSkillByKeyHandler, h]

theorem get_by_key_spec_witness :
    getSkillByKeyHandler [skillPython] "go" = ⟨404, .message "error" "Skill not found"⟩ :=
  (get_by_key_spec [skillPython] "go").1 (by decide)

/-- C7: DELETE of a present key answers 200 and removes the record, so a
subsequent GET of that key answers 404 with "Skill not found", while every
other key still selects exactly what it selected before. -/
theorem delete_then_get_spec (db : Store) (k : String) (s : Skill)
    (h : selectSkillByKey db k = some s) :
    deleteSkillByKeyHandler db k
        = (⟨200, .message "success" "Skill deleted"⟩, deleteRows db k)
    ∧ getSkillByKeyHandler (deleteRows db k) k
        = ⟨404, .message "error" "Skill not found"⟩
    ∧ ∀ k2, k2 ≠ k → selectSkillByKey (deleteRows db k) k2 = selectSkillByKey db k2 := by
  refine ⟨?_, ?_, fun k2 hk2 => ?_⟩
  · simp [deleteSkillByKeyHandler, h]
  · simp [getSkillByKeyHandler, selectSkillByKey_deleteRows_self]
  · exact selectSkillByKey_deleteRows_other db k k2 hk2

theorem delete_then_get_spec_witness :
    deleteSkillByKeyHandler [skillPython, skillGo] "python"
        = (⟨200, .message "success" "Skill deleted"⟩, [skillGo])
    ∧ getSkillByKeyHandler [skillGo] "python"
        = ⟨404, .message "error" "Skill not found"⟩ := by
  have h := delete_then_get_spec [skillPython, skillGo] "python" skillPython (by decide)
  have e : deleteRows [skillPython, skillGo] "python" = [skillGo] := by decide
  constructor
  · rw [h.1, e]
  · rw [← e]
    exact h.2.1

theorem updateSkillV2_eq (db : Store) (k : String) (bodyOpt : Option Skill) :
    updateSkillV2 db k bodyOpt "all" =
      match selectSkillByKey db k with
      | some oldRow =>
          (some ⟨200, .bare (setField "all" { bindSkill bodyOpt with key := k } oldRow)⟩,
           updateRows db "all" { bindSkill bodyOpt with key := k } k)
      | none => (some ⟨400, .message "error" "not be able to update skill"⟩, db) := by
  unfold updateSkillV2
  rw [if_pos rfl]

/-- C1: counterexample.  The 200 response of DELETE /api/v1/skills/:key
carries no data field (its body is the message envelope "Skill deleted"),
and the 200 response of the earlier server version's PUT is the bare skill
struct, which has neither a status nor a data field. -/
theorem envelope_claim_counterexample :
    ((deleteSkillByKeyHandler [skillPython] "python").1.code = 200
      ∧ hasDataField (deleteSkillByKeyHandler [skillPython] "python").1.body = false)
    ∧ ((updateSkillV2 [skillPython] "python" (some skillGo) "all").1
          = some ⟨200, .bare { skillGo with key := "python" }⟩
      ∧ statusFieldOf (RespBody.bare { skillGo with key := "python" }) = none
      ∧ hasDataField (RespBody.bare { skillGo with key := "python" }) = false) := by
  refine ⟨⟨?_, ?_⟩, ?_, ?_, ?_⟩ <;> decide

/-- C1 (amended): on every request whose JSON body (when the route binds
one) was successfully bound, the envelope discipline holds: non-200
responses carry the error envelope with status "error" and a message
field, and 200 responses of GET (list and by-key), POST and the update
dispatcher carry status "success" and a data field; the 200 response of
DELETE instead carries status "success" with the message "Skill deleted"
and no data field, and the 200 response of the earlier server version's
PUT is the bare skill with no envelope.  When the JSON bind fails, gin has
already written HTTP 400, so the wire status of POST and of every
dispatched update is 400 regardless of the rendered body (which may be a
success envelope). -/
theorem envelope_claim_amended (db : Store) (k : String) (req : Option SkillBody)
    (bodyOpt : Option Skill) (field : String) :
    ((getSkillsHandler db).code = 200 ∧ isSuccessData (getSkillsHandler db).body = true)
    ∧ ((getSkillByKeyHandler db k).code = 200 →
        isSuccessData (getSkillByKeyHandler db k).body = true)
    ∧ ((getSkillByKeyHandler db k).code ≠ 200 →
        isErrorMessage (getSkillByKeyHandler db k).body = true)
    ∧ (∀ b, req = some b →
        ((createSkillHandlerFull db req).1.code = 200 →
          isSuccessData (createSkillHandlerFull db req).1.body = true)
        ∧ ((createSkillHandlerFull db req).1.code ≠ 200 →
          isErrorMessage (createSkillHandlerFull db req).1.body = true))
    ∧ (∀ b resp db2, req = some b →
        updateSkillFull db k req field = some (resp, db2) →
        (resp.code = 200 → isSuccessData resp.body = true)
        ∧ (resp.code ≠ 200 → isErrorMessage resp.body = true))
    ∧ ((deleteSkillByKeyHandler db k).1.code = 200 →
        (deleteSkillByKeyHandler db k).1.body = .message "success" "Skill deleted"
        ∧ hasDataField (deleteSkillByKeyHandler db k).1.body = false)
    ∧ ((deleteSkillByKeyHandler db k).1.code ≠ 200 →
        isErrorMessage (deleteSkillByKeyHandler db k).1.body = true)
    ∧ (∀ resp, (updateSkillV2 db k bodyOpt "all").1 = some resp →
        (resp.code = 200 → ∃ s, resp.body = .bare s)
        ∧ (resp.code ≠ 200 → isErrorMessage resp.body = true))
    ∧ ((createSkillHandlerFull db none).1.code = 400)
    ∧ (∀ resp db2, updateSkillFull db k none field = some (resp, db2) →
        resp.code = 400) := by
  refine ⟨⟨rfl, rfl⟩, ?_, ?_, ?_, ?_, ?_, ?_, ?_, ?_, ?_⟩
  · cases h : selectSkillByKey db k <;> simp [getSkillByKeyHandler, h, isSuccessData]
  · cases h : selectSkillByKey db k <;> simp [getSkillByKeyHandler, h, isErrorMessage]
  · rintro b rfl
    cases h : insertSkillFull db (bindSkillBody (some b)) with
    | some p =>
        obtain ⟨row, db2⟩ := p
        simp [createSkillHandlerFull, h, wireCode, isSuccessData]
    | none =>
        simp [createSkillHandlerFull, h, wireCode, isErrorMessage]
  · rintro b resp db2 rfl hres
    by_cases hf : field = "all" ∨ field = "name" ∨ field = "description"
        ∨ field = "logo" ∨ field = "tags"
    · rw [updateSkillFull_eq db k (some b) field hf] at hres
      split at hres
      · split at hres
        · simp only [Option.some.injEq, Prod.mk.injEq] at hres
          obtain ⟨h1, h2⟩ := hres
          subst h1
          refine ⟨fun hc => ?_, fun _ => ?_⟩
          · simp [wireCode] at hc
          · simp [isErrorMessage]
        · simp only [Option.some.injEq, Prod.mk.injEq] at hres
          obtain ⟨h1, h2⟩ := hres
          subst h1
          refine ⟨fun _ => ?_, fun hc => ?_⟩
          · simp [isSuccessData]
          · simp [wireCode] at hc
      · simp only [Option.some.injEq, Prod.mk.injEq] at hres
        obtain ⟨h1, h2⟩ := hres
        subst h1
        refine ⟨fun hc => ?_, fun _ => ?_⟩
        · simp [wireCode] at hc
        · simp [isErrorMessage]
    · unfold updateSkillFull at hres
      rw [if_neg hf] at hres
      exact absurd hres (by simp)
  · cases h : selectSkillByKey db k <;>
      simp [deleteSkillByKeyHandler, h, hasDataField]
  · cases h : selectSkillByKey db k <;>
      simp [deleteSkillByKeyHandler, h, isErrorMessage]
  · intro resp hres
    rw [updateSkillV2_eq db k bodyOpt] at hres
    cases h : selectSkillByKey db k with
    | some old =>
        rw [h] at hres
        simp only [Option.some.injEq] at hres
        rw [← hres]
        exact ⟨fun _ => ⟨_, rfl⟩, fun hne => absurd rfl hne⟩
    | none =>
        rw [h] at hres
        simp only [Option.some.injEq] at hres
        rw [← hres]
        simp [isErrorMessage]
  · rfl
  · intro resp db2 hres
    by_cases hf : field = "all" ∨ field = "name" ∨ field = "description"
        ∨ field = "logo" ∨ field = "tags"
    · rw [updateSkillFull_eq db k none field hf] at hres
      split at hres
      · split at hres
        · simp only [Option.some.injEq, Prod.mk.injEq] at hres
          rw [← hres.1]
          simp [wireCode]
        · simp only [Option.some.injEq, Prod.mk.injEq] at hres
          rw [← hres.1]
          simp [wireCode]
      · simp only [Option.some.injEq, Prod.mk.injEq] at hres
        rw [← hres.1]
        simp [wireCode]
    · unfold updateSkillFull at hres
      rw [if_neg hf] at hres
      exact absurd hres (by simp)

theorem envelope_claim_amended_witness :
    isSuccessData (getSkillByKeyHandler [skillPython] "python").body = true :=
  (envelope_claim_amended [skillPython] "python" none none "all").2.1 (by decide)

/-- C2: for each of the five target field names the dispatcher issues the
corresponding UPDATE...RETURNING (never the nil-row panic path), keyed by
the path parameter so that the key carried by the request body is
irrelevant; when no row matches that key it answers the generic failure
envelope — never a success — and leaves the store unchanged; when a row
matches, the statement either applies exactly the selected SET clause at
the path key, or, when a nil tags slice would reach the tags column (the
tags and "all" statements), fails the NOT NULL constraint and answers the
generic failure envelope with the store unchanged. -/
theorem update_dispatcher_spec (db : Store) (k : String) (req : Option SkillBody)
    (field : String) (hf : field ∈ validUpdateFields) :
    ∃ resp db2, updateSkillFull db k req field = some (resp, db2)
      ∧ (∀ k2, updateSkillFull db k (req.map fun b => { b with key := k2 }) field
            = some (resp, db2))
      ∧ (selectSkillByKey db k = none →
          resp = ⟨wireCode req.isNone 400, .message "error" (updateErrMsg field)⟩
          ∧ db2 = db ∧ isSuccessData resp.body = false)
      ∧ (∀ old, selectSkillByKey db k = some old →
          if (field = "all" ∨ field = "tags") ∧ (bindSkillBody req).tags = none then
            resp = ⟨wireCode req.isNone 400, .message "error" (updateErrMsg field)⟩
            ∧ db2 = db ∧ isSuccessData resp.body = false
          else
            resp = ⟨wireCode req.isNone 200,
                    .skillData "success" (setField field (requestRow k req) old)⟩
            ∧ db2 = updateRows db field (requestRow k req) k) := by
  have hf5 := (mem_validUpdateFields_iff field).1 hf
  cases h : selectSkillByKey db k with
  | none =>
      refine ⟨⟨wireCode req.isNone 400, .message "error" (updateErrMsg field)⟩, db,
              ?_, ?_, ?_, ?_⟩
      · simp only [updateSkillFull_eq db k req field hf5, h]
      · intro k2
        rw [updateSkillFull_body_key_irrelevant db k k2 req field]
        simp only [updateSkillFull_eq db k req field hf5, h]
      · exact fun _ => ⟨rfl, rfl, rfl⟩
      · intro old hold
        exact absurd hold (by simp)
  | some old0 =>
      by_cases hv : (field = "all" ∨ field = "tags") ∧ (bindSkillBody req).tags = none
      · refine ⟨⟨wireCode req.isNone 400, .message "error" (updateErrMsg field)⟩, db,
                ?_, ?_, ?_, ?_⟩
        · simp only [updateSkillFull_eq db k req field hf5, h]
          rw [if_pos hv]
        · intro k2
          rw [updateSkillFull_body_key_irrelevant db k k2 req field]
          simp only [updateSkillFull_eq db k req field hf5, h]
          rw [if_pos hv]
        · intro hn
          exact absurd hn (by simp)
        · intro old hold
          injection hold with he
          subst he
          rw [if_pos hv]
          exact ⟨rfl, rfl, rfl⟩
      · refine ⟨⟨wireCode req.isNone 200,
                 .skillData "success" (setField field (requestRow k req) old0)⟩,
                updateRows db field (requestRow k req) k, ?_, ?_, ?_, ?_⟩
        · simp only [updateSkillFull_eq db k req field hf5, h]
          rw [if_neg hv]
        · intro k2
          rw [updateSkillFull_body_key_irrelevant db k k2 req field]
          simp only [updateSkillFull_eq db k req field hf5, h]
          rw [if_neg hv]
        · intro hn
          exact absurd hn (by simp)
        · intro old hold
          injection hold with he
          subst he
          rw [if_neg hv]
          exact ⟨rfl, rfl⟩

theorem update_dispatcher_spec_witness :
    ∃ resp db2, updateSkillFull [skillPython] "python"
        (some ⟨"bodykey", "Go", "", "", some ["x"]⟩) "name" = some (resp, db2) := by
  obtain ⟨resp, db2, h1, -⟩ :=
    update_dispatcher_spec [skillPython] "python"
      (some ⟨"bodykey", "Go", "", "", some ["x"]⟩) "name" (by decide)
  exact ⟨resp, db2, h1⟩

theorem mem_patchFields_iff (field : String) :
    field ∈ patchFields ↔ (field = "name" ∨ field = "description"
      ∨ field = "logo" ∨ field = "tags") := by
  simp [patchFields]

theorem setField_agrees (field : String) (s r : Skill) (hf : field ∈ patchFields) :
    agreesOffField field (setField field s r) r := by
  rcases (mem_patchFields_iff field).1 hf with h | h | h | h <;> subst h <;>
    simp [setField, agreesOffField]

theorem forall₂_map_self {R : Skill → Skill → Prop} (f : Skill → Skill)
    (l : List Skill) (h : ∀ r, R (f r) r) : List.Forall₂ R (l.map f) l := by
  induction l with
  | nil => exact List.Forall₂.nil
  | cons a l ih => exact List.Forall₂.cons (h a) ih

/-- C3: a single-field PATCH rewrites the table row-by-row so that every
row with a different key is exactly unchanged and the row with the targeted
key agrees with its prior value on every column except possibly the
targeted field (the key included); in particular no row is added or
removed. -/
theorem patch_frame_spec (db : Store) (k : String) (bodyOpt : Option Skill)
    (field : String) (hf : field ∈ patchFields) (resp : HttpResponse) (db2 : Store)
    (h : updateSkill db k bodyOpt field = some (resp, db2)) :
    List.Forall₂ (fun nw old =>
      (old.key ≠ k → nw = old) ∧ (old.key = k → agreesOffField field nw old))
      db2 db := by
  have hf5 : field = "all" ∨ field = "name" ∨ field = "description"
      ∨ field = "logo" ∨ field = "tags" :=
    Or.inr ((mem_patchFields_iff field).1 hf)
  rw [updateSkill_eq db k bodyOpt field hf5] at h
  cases hsel : selectSkillByKey db k with
  | none =>
      rw [hsel] at h
      simp only [Option.some.injEq, Prod.mk.injEq] at h
      rw [← h.2]
      exact List.forall₂_same.2 (fun r _ =>
        ⟨fun _ => rfl, fun _ =>
          ⟨rfl, Or.inr rfl, Or.inr rfl, Or.inr rfl, Or.inr rfl⟩⟩)
  | some old =>
      rw [hsel] at h
      simp only [Option.some.injEq, Prod.mk.injEq] at h
      rw [← h.2]
      apply forall₂_map_self
      intro r
      by_cases hk : r.key = k
      · rw [if_pos hk]
        exact ⟨fun hne => absurd hk hne,
          fun _ => setField_agrees field { bindSkill bodyOpt with key := k } r hf⟩
      · rw [if_neg hk]
        exact ⟨fun _ => rfl, fun hkk => absurd hkk hk⟩

theorem patch_frame_spec_witness :
    List.Forall₂ (fun nw old => (old.key ≠ "python" → nw = old)
      ∧ (old.key = "python" → agreesOffField "name" nw old))
      [{ skillPython with name := "Go" }, skillGo] [skillPython, skillGo] :=
  patch_frame_spec [skillPython, skillGo] "python" (some skillGo) "name" (by decide)
    ⟨200, .skillData "success" { skillPython with name := "Go" }⟩
    [{ skillPython with name := "Go" }, skillGo] (by decide)

theorem keysNodup_create (db : Store) (b : Option Skill) (h : keysNodup db) :
    keysNodup (createSkillHandler db b).2 := by
  cases hsel : selectSkillByKey db (bindSkill b).key with
  | some s =>
      simpa [createSkillHandler, insertSkill, hsel] using h
  | none =>
      have hnotmem : (bindSkill b).key ∉ keys db := by
        intro hmem
        obtain ⟨r, hr, he⟩ := List.mem_map.1 hmem
        exact (selectSkillByKey_eq_none_iff db _).1 hsel r hr he
      have he2 : (createSkillHandler db b).2 = db ++ [bindSkill b] := by
        simp [createSkillHandler, insertSkill, hsel]
      rw [he2]
      unfold keysNodup keys at h ⊢
      rw [List.map_append]
      simp only [List.nodup_append, List.map_cons, List.map_nil]
      exact ⟨h, List.nodup_singleton _, by
        intro a ha hb
        simp only [List.mem_singleton] at hb
        subst hb
        exact hnotmem ha⟩

theorem keysNodup_update (db : Store) (k : String) (b : Option Skill) (field : String)
    (h : keysNodup db) (resp : HttpResponse) (db2 : Store)
    (hu : updateSkill db k b field = some (resp, db2)) : keysNodup db2 := by
  by_cases hf : field = "all" ∨ field = "name" ∨ field = "description"
      ∨ field = "logo" ∨ field = "tags"
  · rw [updateSkill_eq db k b field hf] at hu
    cases hsel : selectSkillByKey db k with
    | some old =>
        rw [hsel] at hu
        simp only [Option.some.injEq, Prod.mk.injEq] at hu
        rw [← hu.2]
        unfold keysNodup
        rw [keys_updateRows]
        exact h
    | none =>
        rw [hsel] at hu
        simp only [Option.some.injEq, Prod.mk.injEq] at hu
        rw [← hu.2]
        exact h
  · unfold updateSkill at hu
    rw [if_neg hf] at hu
    exact absurd hu (by simp)

theorem keysNodup_delete (db : Store) (k : String) (h : keysNodup db) :
    keysNodup (deleteSkillByKeyHandler db k).2 := by
  cases hsel : selectSkillByKey db k with
  | some s =>
      have he2 : (deleteSkillByKeyHandler db k).2 = deleteRows db k := by
        simp [deleteSkillByKeyHandler, hsel]
      rw [he2]
      unfold keysNodup keys at h ⊢
      exact h.sublist ((deleteRows_sublist db k).map (fun r => r.key))
  | none =>
      simpa [deleteSkillByKeyHandler, hsel] using h

theorem keysNodup_updateStep (db : Store) (k : String) (b : Option Skill)
    (field : String) (h : keysNodup db) :
    keysNodup (match updateSkill db k b field with
      | some (_, db2) => db2
      | none => db) := by
  cases hu : updateSkill db k b field with
  | none => exact h
  | some p =>
      cases p with
      | mk resp db2 => exact keysNodup_update db k b field h resp db2 hu

theorem keysNodup_step (db : Store) (op : Op) (h : keysNodup db) :
    keysNodup (step db op) := by
  cases op with
  | createOp b => exact keysNodup_create db b h
  | getAllOp => exact h
  | getOp _ => exact h
  | putOp k b => exact keysNodup_updateStep db k b "all" h
  | patchNameOp k b => exact keysNodup_updateStep db k b "name" h
  | patchDescriptionOp k b => exact keysNodup_updateStep db k b "description" h
  | patchLogoOp k b => exact keysNodup_updateStep db k b "logo" h
  | patchTagsOp k b => exact keysNodup_updateStep db k b "tags" h
  | deleteOp k => exact keysNodup_delete db k h

/-- C8: primary-key uniqueness is an invariant of the service: after any
sequence of routed create, read, update and delete requests starting from a
table with pairwise distinct keys, the keys are still pairwise distinct; a
duplicate create is rejected by the store-level constraint (`insertSkill`),
not by any check in the handler code. -/
theorem primary_key_unique_invariant (ops : List Op) (db : Store)
    (h : keysNodup db) : keysNodup (List.foldl step db ops) := by
  induction ops generalizing db with
  | nil => exact h
  | cons op rest ih => exact ih (step db op) (keysNodup_step db op h)

theorem primary_key_unique_invariant_witness :
    keysNodup (List.foldl step []
      [Op.createOp (some skillPython), Op.createOp (some skillPython),
       Op.createOp (some skillGo), Op.patchNameOp "python" (some skillGo),
       Op.deleteOp "go"]) :=
  primary_key_unique_invariant
    [Op.createOp (some skillPython), Op.createOp (some skillPython),
     Op.createOp (some skillGo), Op.patchNameOp "python" (some skillGo),
     Op.deleteOp "go"] [] (by simp [keysNodup, keys])

/-- C9: no PUT or PATCH can change a record's key or the set of keys: the
update dispatcher leaves the keys column of the table unchanged, behaves
identically whatever key the request body carried (the path parameter
overwrites it before any statement is issued), returns a data record whose
key is the path key, and the earlier server version's PUT preserves the
keys column as well. -/
theorem update_preserves_keys (db : Store) (k : String) (bodyOpt : Option Skill)
    (field : String) (hf : field ∈ validUpdateFields) (resp : HttpResponse)
    (db2 : Store) (h : updateSkill db k bodyOpt field = some (resp, db2)) :
    keys db2 = keys db
    ∧ (∀ k2, updateSkill db k (bodyOpt.map fun s => { s with key := k2 }) field
          = some (resp, db2))
    ∧ (∀ st sk, resp.body = .skillData st sk → sk.key = k)
    ∧ keys (updateSkillV2 db k bodyOpt "all").2 = keys db := by
  have hf5 := (mem_validUpdateFields_iff field).1 hf
  have hv2 : keys (updateSkillV2 db k bodyOpt "all").2 = keys db := by
    rw [updateSkillV2_eq db k bodyOpt]
    cases hsel : selectSkillByKey db k with
    | some old => exact keys_updateRows db "all" _ k
    | none => rfl
  have hcopy := h
  rw [updateSkill_eq db k bodyOpt field hf5] at hcopy
  cases hsel : selectSkillByKey db k with
  | some old =>
      rw [hsel] at hcopy
      simp only [Option.some.injEq, Prod.mk.injEq] at hcopy
      obtain ⟨h1, h2⟩ := hcopy
      subst h1
      subst h2
      refine ⟨keys_updateRows db field _ k, ?_, ?_, hv2⟩
      · intro k2
        rw [updateSkill_body_key_irrelevant db k k2 bodyOpt field]
        exact h
      · intro st sk hb
        simp only at hb
        injection hb with hst hsk
        rw [← hsk, setField_key]
        exact selectSkillByKey_key db k old hsel
  | none =>
      rw [hsel] at hcopy
      simp only [Option.some.injEq, Prod.mk.injEq] at hcopy
      obtain ⟨h1, h2⟩ := hcopy
      subst h1
      subst h2
      refine ⟨rfl, ?_, ?_, hv2⟩
      · intro k2
        rw [updateSkill_body_key_irrelevant db k k2 bodyOpt field]
        exact h
      · intro st sk hb
        simp only at hb
        exact absurd hb (by simp)

theorem update_preserves_keys_witness :
    keys [{ skillPython with name := "Go" }] = keys [skillPython] :=
  (update_preserves_keys [skillPython] "python" (some skillGo) "name" (by decide)
    ⟨200, .skillData "success" { skillPython with name := "Go" }⟩
    [{ skillPython with name := "Go" }] (by decide)).1

/-- C10: counterexample.  gin's `BindJSON` does more than record the bind
error: it has already written HTTP 400 to the wire, so a bind-failed PATCH
of name on an existing key goes out with wire status 400 even though the
handler rendered the success envelope; and the zero value a failed bind
leaves in tags is a nil slice, so the still-issued INSERT sends SQL NULL
into the NOT NULL tags column, fails, and answers the error envelope of
the 409 branch (wire status 400) storing nothing — even into an empty
table. -/
theorem bind_failure_counterexample :
    updateSkillFull [skillPython] "python" none "name"
        = some (⟨400, .skillData "success" { skillPython with name := "" }⟩,
                [{ skillPython with name := "" }])
    ∧ createSkillHandlerFull [] none
        = (⟨400, .message "error" "Skill already exists"⟩, []) := by
  constructor <;> rfl

/-- C10 (amended): a malformed JSON body does not abort the handler's own
execution — the dispatcher still issues its UPDATE statement with the zero
values (empty strings, nil tags) for every field the body failed to
supply, rendering the same body and store effect as a request carrying the
zero-valued struct — but `BindJSON` both records the error and writes HTTP
400 to the wire, so the wire status of every bind-failed request is 400;
and because the zero tags value is a nil slice, the INSERT carries SQL
NULL into the NOT NULL tags column, fails, and takes the handler's error
path storing nothing. -/
theorem bind_failure_amended (db : Store) (k : String) (field : String)
    (hf : field ∈ validUpdateFields) :
    createSkillHandlerFull db none
        = (⟨400, .message "error" "Skill already exists"⟩, db)
    ∧ (∃ resp db2, updateSkillFull db k none field = some (resp, db2)
        ∧ resp.code = 400
        ∧ (updateSkillFull db k (some zeroSkillBody) field).map
              (fun p => (p.1.body, p.2)) = some (resp.body, db2)) := by
  have hf5 := (mem_validUpdateFields_iff field).1 hf
  refine ⟨rfl, ?_⟩
  cases h : selectSkillByKey db k with
  | none =>
      refine ⟨⟨400, .message "error" (updateErrMsg field)⟩, db, ?_, rfl, ?_⟩
      · simp only [updateSkillFull_eq db k none field hf5, h]
        rfl
      · simp only [updateSkillFull_eq db k (some zeroSkillBody) field hf5, h]
        rfl
  | some old0 =>
      by_cases hv : field = "all" ∨ field = "tags"
      · have hv2 : (field = "all" ∨ field = "tags")
            ∧ (bindSkillBody none).tags = none := ⟨hv, rfl⟩
        have hv3 : (field = "all" ∨ field = "tags")
            ∧ (bindSkillBody (some zeroSkillBody)).tags = none := ⟨hv, rfl⟩
        refine ⟨⟨400, .message "error" (updateErrMsg field)⟩, db, ?_, rfl, ?_⟩
        · simp only [updateSkillFull_eq db k none field hf5, h]
          rw [if_pos hv2]
          rfl
        · simp only [updateSkillFull_eq db k (some zeroSkillBody) field hf5, h]
          rw [if_pos hv3]
          rfl
      · have hv2 : ¬((field = "all" ∨ field = "tags")
            ∧ (bindSkillBody none).tags = none) := fun hc => hv hc.1
        have hv3 : ¬((field = "all" ∨ field = "tags")
            ∧ (bindSkillBody (some zeroSkillBody)).tags = none) := fun hc => hv hc.1
        refine ⟨⟨400, .skillData "success" (setField field (requestRow k none) old0)⟩,
                updateRows db field (requestRow k none) k, ?_, rfl, ?_⟩
        · simp only [updateSkillFull_eq db k none field hf5, h]
          rw [if_neg hv2]
          rfl
        · simp only [updateSkillFull_eq db k (some zeroSkillBody) field hf5, h]
          rw [if_neg hv3]
          rfl

theorem bind_failure_amended_witness :
    createSkillHandlerFull [skillPython] none
      = (⟨400, .message "error" "Skill already exists"⟩, [skillPython]) :=
  (bind_failure_amended [skillPython] "python" "name" (by decide)).1
